import Mathlib

/-!
# wblevel0: order ingestion, persistence and cache lookup

A shallow embedding of `cmd/service/main.go`:

* the order aggregate (`payload`, `payloadDelivery`, `payloadPayment`, `payloadItem`);
* `json.Unmarshal` into a `payload`, on the level of JSON value trees;
* the two tables `orders` and `items` with the `INSERT` statements of the subscription
  handler and the `SELECT` statements of `initializeCache` and `scanItems`;
* the in-memory cache `map[string]payload`, the subscription handler of `run`, the two
  routes of `setupRoutes`, and the warm-up `initializeCache`.

The database and the JSON library are outside the repository.  The database decides
whether a statement succeeds, so its verdict is a parameter (`DB`, `Reads`); what a
statement does when it succeeds is fixed by its SQL text.
-/

namespace WbLevel0

/-! ## Data model (main.go, lines 259-311) -/

/-- Go struct `payloadDelivery`. -/
structure payloadDelivery where
  Name : String
  Phone : String
  Zip : String
  City : String
  Address : String
  Region : String
  Email : String
deriving DecidableEq

/-- Go struct `payloadPayment`. -/
structure payloadPayment where
  Transaction : String
  RequestId : String
  Currency : String
  Provider : String
  Amount : Int
  PaymentDt : Int
  Bank : String
  DeliveryCost : Int
  GoodsTotal : Int
  CustomFee : Int
deriving DecidableEq

/-- Go struct `payloadItem`. -/
structure payloadItem where
  ChrtId : Int
  TrackNumber : String
  Price : Int
  Rid : String
  Name : String
  Sale : Int
  Size : String
  TotalPrice : Int
  NmId : Int
  Brand : String
  Status : Int
deriving DecidableEq

/-- Go struct `payload`: the order aggregate.  A Go slice is a list here; the nil slice
and the empty slice are both `[]`. -/
structure payload where
  OrderUid : String
  TrackNumber : String
  Entry : String
  Delivery : payloadDelivery
  Payment : payloadPayment
  Items : List payloadItem
  Locale : String
  InternalSignature : String
  CustomerId : String
  DeliveryService : String
  ShardKey : String
  SmId : Int
  DateCreated : String
  OofShard : String
deriving DecidableEq

/-- Zero value of `payloadDelivery`. -/
def payloadDelivery.zero : payloadDelivery :=
  { Name := "", Phone := "", Zip := "", City := "", Address := "", Region := "", Email := "" }

/-- Zero value of `payloadPayment`. -/
def payloadPayment.zero : payloadPayment :=
  { Transaction := "", RequestId := "", Currency := "", Provider := "", Amount := 0,
    PaymentDt := 0, Bank := "", DeliveryCost := 0, GoodsTotal := 0, CustomFee := 0 }

/-- Zero value of `payloadItem`. -/
def payloadItem.zero : payloadItem :=
  { ChrtId := 0, TrackNumber := "", Price := 0, Rid := "", Name := "", Sale := 0, Size := "",
    TotalPrice := 0, NmId := 0, Brand := "", Status := 0 }

/-- Zero value of `payload`: what `var receivedPayload payload` declares (line 86). -/
def payload.zero : payload :=
  { OrderUid := "", TrackNumber := "", Entry := "", Delivery := payloadDelivery.zero,
    Payment := payloadPayment.zero, Items := [], Locale := "", InternalSignature := "",
    CustomerId := "", DeliveryService := "", ShardKey := "", SmId := 0, DateCreated := "",
    OofShard := "" }

/-! ## `json.Unmarshal` into a `payload`

The library is modelled on JSON value trees.  A number literal is kept in two forms
because a Go `int` field accepts only a literal that is a decimal integer. -/

/-- JSON value tree.  `int n` is a number literal of the form `-?digits`; `frac lit` is
a number literal with a fraction or an exponent.  An object keeps its members in text
order, repeated keys included. -/
inductive Json where
  | null
  | bool (b : Bool)
  | int (n : Int)
  | frac (lit : String)
  | str (s : String)
  | arr (elems : List Json)
  | obj (members : List (String × Json))

/-- Body of an inbound message (`m.Data`) as the decoder sees it: text that is not
well-formed JSON, or the value tree of well-formed text. -/
inductive MsgData where
  | invalid
  | json (v : Json)

/-- Smallest value of a 64-bit Go `int`. -/
def minInt : Int := -9223372036854775808

/-- Largest value of a 64-bit Go `int`. -/
def maxInt : Int := 9223372036854775807

/-- Case folding of one rune of an object key, as the decoder compares keys with
field names: ASCII letters fold to upper case, and the two non-ASCII runes whose
simple case folding reaches ASCII (long s, Kelvin sign) fold to `S` and `K`. -/
def foldRune (c : Char) : Char :=
  if 97 ≤ c.toNat ∧ c.toNat ≤ 122 then Char.ofNat (c.toNat - 32)
  else if c.toNat = 0x17F then 'S'
  else if c.toNat = 0x212A then 'K'
  else c

/-- Folded form of a key or of a field name. -/
def foldName (s : String) : List Char := s.data.map foldRune

/-- Field of a struct addressed by an object key: the field whose JSON name is the key
exactly, otherwise the first field whose name equals the key up to case folding;
`none` for a key of no field (such a member is skipped). -/
def findField {F : Type} (fields : List (String × F)) (key : String) : Option F :=
  match fields.find? (fun f => decide (f.1 = key)) with
  | some f => some f.2
  | none =>
    match fields.find? (fun f => decide (foldName f.1 = foldName key)) with
    | some f => some f.2
    | none => none

/-- Storing a JSON value into a Go `string`: a string is stored, `null` leaves the
field as it is, any other value is an error. -/
def decodeString (cur : String) : Json → Option String
  | Json.null => some cur
  | Json.str s => some s
  | _ => none

/-- Storing a JSON value into a Go `int`: an integer literal within the 64-bit range is
stored, `null` leaves the field as it is, any other value is an error. -/
def decodeInt (cur : Int) : Json → Option Int
  | Json.null => some cur
  | Json.int n => if minInt ≤ n ∧ n ≤ maxInt then some n else none
  | _ => none

/-- Decoding the members of a JSON object into a struct value, member by member in text
order: a key of no field is skipped, an error in a member fails the decoding. -/
def decodeMembers {S F : Type} (fields : List (String × F)) (setField : S → F → Json → Option S) :
    S → List (String × Json) → Option S
  | cur, [] => some cur
  | cur, (k, v) :: rest =>
    match findField fields k with
    | none => decodeMembers fields setField cur rest
    | some f =>
      match setField cur f v with
      | none => none
      | some next => decodeMembers fields setField next rest

/-- Storing a JSON value into a struct: an object is decoded member by member into the
current value, `null` leaves it as it is, any other value is an error. -/
def decodeStruct {S F : Type} (fields : List (String × F)) (setField : S → F → Json → Option S)
    (cur : S) : Json → Option S
  | Json.null => some cur
  | Json.obj members => decodeMembers fields setField cur members
  | _ => none

/-- Fields of `payloadDelivery`. -/
inductive payloadDelivery.Field where
  | Name | Phone | Zip | City | Address | Region | Email
deriving DecidableEq

/-- JSON names of the fields of `payloadDelivery` (struct tags, lines 277-283). -/
def payloadDelivery.fields : List (String × payloadDelivery.Field) :=
  [("name", .Name), ("phone", .Phone), ("zip", .Zip), ("city", .City),
   ("address", .Address), ("region", .Region), ("email", .Email)]

/-- Storing a JSON value into one field of a `payloadDelivery`. -/
def payloadDelivery.setField (d : payloadDelivery) :
    payloadDelivery.Field → Json → Option payloadDelivery
  | .Name, v => (decodeString d.Name v).map fun x => { d with Name := x }
  | .Phone, v => (decodeString d.Phone v).map fun x => { d with Phone := x }
  | .Zip, v => (decodeString d.Zip v).map fun x => { d with Zip := x }
  | .City, v => (decodeString d.City v).map fun x => { d with City := x }
  | .Address, v => (decodeString d.Address v).map fun x => { d with Address := x }
  | .Region, v => (decodeString d.Region v).map fun x => { d with Region := x }
  | .Email, v => (decodeString d.Email v).map fun x => { d with Email := x }

/-- Fields of `payloadPayment`. -/
inductive payloadPayment.Field where
  | Transaction | RequestId | Currency | Provider | Amount | PaymentDt | Bank
  | DeliveryCost | GoodsTotal | CustomFee
deriving DecidableEq

/-- JSON names of the fields of `payloadPayment` (struct tags, lines 287-296). -/
def payloadPayment.fields : List (String × payloadPayment.Field) :=
  [("transaction", .Transaction), ("request_id", .RequestId), ("currency", .Currency),
   ("provider", .Provider), ("amount", .Amount), ("payment_dt", .PaymentDt), ("bank", .Bank),
   ("delivery_cost", .DeliveryCost), ("goods_total", .GoodsTotal), ("custom_fee", .CustomFee)]

/-- Storing a JSON value into one field of a `payloadPayment`. -/
def payloadPayment.setField (p : payloadPayment) :
    payloadPayment.Field → Json → Option payloadPayment
  | .Transaction, v => (decodeString p.Transaction v).map fun x => { p with Transaction := x }
  | .RequestId, v => (decodeString p.RequestId v).map fun x => { p with RequestId := x }
  | .Currency, v => (decodeString p.Currency v).map fun x => { p with Currency := x }
  | .Provider, v => (decodeString p.Provider v).map fun x => { p with Provider := x }
  | .Amount, v => (decodeInt p.Amount v).map fun x => { p with Amount := x }
  | .PaymentDt, v => (decodeInt p.PaymentDt v).map fun x => { p with PaymentDt := x }
  | .Bank, v => (decodeString p.Bank v).map fun x => { p with Bank := x }
  | .DeliveryCost, v => (decodeInt p.DeliveryCost v).map fun x => { p with DeliveryCost := x }
  | .GoodsTotal, v => (decodeInt p.GoodsTotal v).map fun x => { p with GoodsTotal := x }
  | .CustomFee, v => (decodeInt p.CustomFee v).map fun x => { p with CustomFee := x }

/-- Fields of `payloadItem`. -/
inductive payloadItem.Field where
  | ChrtId | TrackNumber | Price | Rid | Name | Sale | Size | TotalPrice | NmId | Brand | Status
deriving DecidableEq

/-- JSON names of the fields of `payloadItem` (struct tags, lines 300-310). -/
def payloadItem.fields : List (String × payloadItem.Field) :=
  [("chrt_id", .ChrtId), ("track_number", .TrackNumber), ("price", .Price), ("rid", .Rid),
   ("name", .Name), ("sale", .Sale), ("size", .Size), ("total_price", .TotalPrice),
   ("nm_id", .NmId), ("brand", .Brand), ("status", .Status)]

/-- Storing a JSON value into one field of a `payloadItem`. -/
def payloadItem.setField (i : payloadItem) : payloadItem.Field → Json → Option payloadItem
  | .ChrtId, v => (decodeInt i.ChrtId v).map fun x => { i with ChrtId := x }
  | .TrackNumber, v => (decodeString i.TrackNumber v).map fun x => { i with TrackNumber := x }
  | .Price, v => (decodeInt i.Price v).map fun x => { i with Price := x }
  | .Rid, v => (decodeString i.Rid v).map fun x => { i with Rid := x }
  | .Name, v => (decodeString i.Name v).map fun x => { i with Name := x }
  | .Sale, v => (decodeInt i.Sale v).map fun x => { i with Sale := x }
  | .Size, v => (decodeString i.Size v).map fun x => { i with Size := x }
  | .TotalPrice, v => (decodeInt i.TotalPrice v).map fun x => { i with TotalPrice := x }
  | .NmId, v => (decodeInt i.NmId v).map fun x => { i with NmId := x }
  | .Brand, v => (decodeString i.Brand v).map fun x => { i with Brand := x }
  | .Status, v => (decodeInt i.Status v).map fun x => { i with Status := x }

/-- Decoding the elements of a JSON array into the slice `Items`, given the backing
array of the slice: element number `i` is decoded into the item the backing array holds
at `i`, and into a zero item beyond the backing array. -/
def decodeElems : List payloadItem → List Json → Option (List payloadItem)
  | _, [] => some []
  | backing, e :: rest =>
    match decodeStruct payloadItem.fields payloadItem.setField
        (backing.head?.getD payloadItem.zero) e with
    | none => none
    | some i =>
      match decodeElems backing.tail rest with
      | none => none
      | some is => some (i :: is)

/-- Storing a JSON value into the slice `Items`, given the slice `cur` and the items
`spare` that its backing array holds beyond its length.  The result is the new slice
and the new spare items.  `null` sets the slice to nil; an empty array sets it to a new
empty slice; an array with elements is decoded element by element over the backing
array, and the slice is cut to the number of elements; any other value is an error. -/
def decodeItems (cur spare : List payloadItem) :
    Json → Option (List payloadItem × List payloadItem)
  | Json.null => some ([], [])
  | Json.arr [] => some ([], [])
  | Json.arr (e :: rest) =>
    (decodeElems (cur ++ spare) (e :: rest)).map
      fun items => (items, (cur ++ spare).drop (e :: rest).length)
  | _ => none

/-- Fields of `payload`. -/
inductive payload.Field where
  | OrderUid | TrackNumber | Entry | Delivery | Payment | Items | Locale | InternalSignature
  | CustomerId | DeliveryService | ShardKey | SmId | DateCreated | OofShard
deriving DecidableEq

/-- JSON names of the fields of `payload` (struct tags, lines 260-273). -/
def payload.fields : List (String × payload.Field) :=
  [("order_uid", .OrderUid), ("track_number", .TrackNumber), ("entry", .Entry),
   ("delivery", .Delivery), ("payment", .Payment), ("items", .Items), ("locale", .Locale),
   ("internal_signature", .InternalSignature), ("customer_id", .CustomerId),
   ("delivery_service", .DeliveryService), ("shardkey", .ShardKey), ("sm_id", .SmId),
   ("date_created", .DateCreated), ("oof_shard", .OofShard)]

/-- State of the decoder while it fills a `payload`: the value so far, and the items
that the backing array of `Items` holds beyond the length of the slice (left there when
an earlier `items` array of the same message was longer). -/
structure Decoding where
  value : payload
  spare : List payloadItem

/-- Storing a JSON value into one field of the `payload` being decoded. -/
def Decoding.setField (d : Decoding) : payload.Field → Json → Option Decoding
  | .OrderUid, v =>
    (decodeString d.value.OrderUid v).map
      fun x => { d with value := { d.value with OrderUid := x } }
  | .TrackNumber, v =>
    (decodeString d.value.TrackNumber v).map
      fun x => { d with value := { d.value with TrackNumber := x } }
  | .Entry, v =>
    (decodeString d.value.Entry v).map
      fun x => { d with value := { d.value with Entry := x } }
  | .Delivery, v =>
    (decodeStruct payloadDelivery.fields payloadDelivery.setField d.value.Delivery v).map
      fun x => { d with value := { d.value with Delivery := x } }
  | .Payment, v =>
    (decodeStruct payloadPayment.fields payloadPayment.setField d.value.Payment v).map
      fun x => { d with value := { d.value with Payment := x } }
  | .Items, v =>
    (decodeItems d.value.Items d.spare v).map
      fun r => { value := { d.value with Items := r.1 }, spare := r.2 }
  | .Locale, v =>
    (decodeString d.value.Locale v).map
      fun x => { d with value := { d.value with Locale := x } }
  | .InternalSignature, v =>
    (decodeString d.value.InternalSignature v).map
      fun x => { d with value := { d.value with InternalSignature := x } }
  | .CustomerId, v =>
    (decodeString d.value.CustomerId v).map
      fun x => { d with value := { d.value with CustomerId := x } }
  | .DeliveryService, v =>
    (decodeString d.value.DeliveryService v).map
      fun x => { d with value := { d.value with DeliveryService := x } }
  | .ShardKey, v =>
    (decodeString d.value.ShardKey v).map
      fun x => { d with value := { d.value with ShardKey := x } }
  | .SmId, v =>
    (decodeInt d.value.SmId v).map fun x => { d with value := { d.value with SmId := x } }
  | .DateCreated, v =>
    (decodeString d.value.DateCreated v).map
      fun x => { d with value := { d.value with DateCreated := x } }
  | .OofShard, v =>
    (decodeString d.value.OofShard v).map
      fun x => { d with value := { d.value with OofShard := x } }

/-- Model of `json.Unmarshal(m.Data, &receivedPayload)` on a zero `receivedPayload`
(lines 86-88): `none` is `err != nil`, `some p` is `err == nil` with the decoded
value.  Text that is not well-formed JSON is an error; a top-level `null` stores
nothing; a top-level value that is neither an object nor `null` is an error. -/
def Unmarshal : MsgData → Option payload
  | MsgData.invalid => none
  | MsgData.json v =>
    (decodeStruct payload.fields Decoding.setField { value := payload.zero, spare := [] } v).map
      fun d => d.value

/-! ## The store: tables `orders` and `items` -/

/-- Row of table `orders`: the 28 columns named by the `INSERT` of lines 97-104 and the
`SELECT` of lines 195-203. -/
structure ordersRow where
  order_uid : String
  track_number : String
  entry : String
  delivery_name : String
  delivery_phone : String
  delivery_zip : String
  delivery_city : String
  delivery_address : String
  delivery_region : String
  delivery_email : String
  payment_transaction : String
  payment_request_id : String
  payment_currency : String
  payment_provider : String
  payment_amount : Int
  payment_payment_dt : Int
  payment_bank : String
  payment_delivery_cost : Int
  payment_goods_total : Int
  payment_custom_fee : Int
  locale : String
  internal_signature : String
  customer_id : String
  delivery_service : String
  shardkey : String
  sm_id : Int
  date_created : String
  oof_shard : String
deriving DecidableEq

/-- Row of table `items`: the 12 columns named by the `INSERT` of lines 127-128. -/
structure itemsRow where
  order_uid : String
  chrt_id : Int
  track_number : String
  price : Int
  rid : String
  name : String
  sale : Int
  size : String
  total_price : Int
  nm_id : Int
  brand : String
  status : Int
deriving DecidableEq

/-- Contents of the database: the rows of each table, oldest first. -/
structure Store where
  orders : List ordersRow
  items : List itemsRow
deriving DecidableEq

/-- The two statements the subscription handler executes. -/
inductive Stmt where
  | insertOrders (r : ordersRow)
  | insertItems (r : itemsRow)
deriving DecidableEq

/-- Verdict of the database on a statement, given its contents: `true` when the
statement is executed, `false` when `conn.Exec` returns an error (a constraint of the
schema, a lost connection, a cancelled context).  The schema is not part of the
repository, so the verdict is a parameter. -/
abbrev DB := Store → Stmt → Bool

/-- Effect of a statement that is executed: the row is added to its table. -/
def Stmt.apply (s : Store) : Stmt → Store
  | Stmt.insertOrders r => { s with orders := s.orders ++ [r] }
  | Stmt.insertItems r => { s with items := s.items ++ [r] }

/-- Model of `conn.Exec(ctx, sql, args...)` outside a transaction: `none` is
`err != nil` and the statement has no effect, `some s` is the store after the
statement. -/
def Exec (db : DB) (s : Store) (q : Stmt) : Option Store :=
  if db s q then some (q.apply s) else none

/-- Arguments `$1..$28` of the `INSERT INTO orders` of lines 96-119, column by column. -/
def ordersValues (receivedPayload : payload) : ordersRow :=
  { order_uid := receivedPayload.OrderUid
    track_number := receivedPayload.TrackNumber
    entry := receivedPayload.Entry
    delivery_name := receivedPayload.Delivery.Name
    delivery_phone := receivedPayload.Delivery.Phone
    delivery_zip := receivedPayload.Delivery.Zip
    delivery_city := receivedPayload.Delivery.City
    delivery_address := receivedPayload.Delivery.Address
    delivery_region := receivedPayload.Delivery.Region
    delivery_email := receivedPayload.Delivery.Email
    payment_transaction := receivedPayload.Payment.Transaction
    payment_request_id := receivedPayload.Payment.RequestId
    payment_currency := receivedPayload.Payment.Currency
    payment_provider := receivedPayload.Payment.Provider
    payment_amount := receivedPayload.Payment.Amount
    payment_payment_dt := receivedPayload.Payment.PaymentDt
    payment_bank := receivedPayload.Payment.Bank
    payment_delivery_cost := receivedPayload.Payment.DeliveryCost
    payment_goods_total := receivedPayload.Payment.GoodsTotal
    payment_custom_fee := receivedPayload.Payment.CustomFee
    locale := receivedPayload.Locale
    internal_signature := receivedPayload.InternalSignature
    customer_id := receivedPayload.CustomerId
    delivery_service := receivedPayload.DeliveryService
    shardkey := receivedPayload.ShardKey
    sm_id := receivedPayload.SmId
    date_created := receivedPayload.DateCreated
    oof_shard := receivedPayload.OofShard }

/-- Arguments `$1..$12` of the `INSERT INTO items` of lines 126-133, column by column. -/
def itemsValues (orderUid : String) (item : payloadItem) : itemsRow :=
  { order_uid := orderUid
    chrt_id := item.ChrtId
    track_number := item.TrackNumber
    price := item.Price
    rid := item.Rid
    name := item.Name
    sale := item.Sale
    size := item.Size
    total_price := item.TotalPrice
    nm_id := item.NmId
    brand := item.Brand
    status := item.Status }

/-! ## The cache and the subscription handler of `run` (lines 83-140) -/

/-- The cache `map[string]payload`, as the lookup it supports. -/
abbrev Cache := String → Option payload

/-- The empty map `map[string]payload{}`. -/
def Cache.empty : Cache := fun _ => none

/-- Map assignment `cache[key] = value`. -/
def Cache.put (cache : Cache) (key : String) (value : payload) : Cache :=
  fun k => if k = key then some value else cache k

/-- What the service holds between two messages: the database and the cache. -/
structure State where
  store : Store
  cache : Cache

/-- The loop `for _, item := range receivedPayload.Items` of lines 125-138: the store
after the loop, and whether the loop ran to its end (`false`: an insert failed and the
handler returned at line 136). -/
def insertItems (db : DB) (orderUid : String) : List payloadItem → Store → Store × Bool
  | [], s => (s, true)
  | item :: rest, s =>
    match Exec db s (Stmt.insertItems (itemsValues orderUid item)) with
    | none => (s, false)
    | some s1 => insertItems db orderUid rest s1

/-- The callback passed to `sc.Subscribe` (lines 83-140), run on one message. -/
def handler (db : DB) (st : State) (m : MsgData) : State :=
  match Unmarshal m with
  | none => st
  | some receivedPayload =>
    match Exec db st.store (Stmt.insertOrders (ordersValues receivedPayload)) with
    | none => st
    | some s1 =>
      match insertItems db receivedPayload.OrderUid receivedPayload.Items s1 with
      | (s2, false) => { store := s2, cache := st.cache }
      | (s2, true) =>
        { store := s2, cache := st.cache.put receivedPayload.OrderUid receivedPayload }

/-! ## The routes of `setupRoutes` (lines 25-40) -/

/-- Value passed to `c.JSON`: an order, or a `gin.H` map of strings. -/
inductive Body where
  | order (p : payload)
  | H (entries : List (String × String))
deriving DecidableEq

/-- Response written by a route: status code and the value serialised as the body. -/
structure Response where
  code : Nat
  body : Body
deriving DecidableEq

/-- `http.StatusOK`. -/
def StatusOK : Nat := 200

/-- `http.StatusNotFound`. -/
def StatusNotFound : Nat := 404

/-- Route `GET /order/:id` (lines 27-35): the response, and the cache after the call. -/
def getOrder (cache : Cache) (orderID : String) : Response × Cache :=
  match cache orderID with
  | none => ({ code := StatusNotFound, body := Body.H [("error", "Order not found")] }, cache)
  | some order => ({ code := StatusOK, body := Body.order order }, cache)

/-- Route `GET /health` (lines 37-39): the response, and the cache after the call. -/
def getHealth (cache : Cache) : Response × Cache :=
  ({ code := StatusOK, body := Body.H [("status", "ok")] }, cache)

/-! ## Warm-up: `initializeCache` and `scanItems` (lines 191-257) -/

/-- The two queries of the warm-up. -/
inductive Query where
  | selectOrders
  | selectItems (orderUid : String)
deriving DecidableEq

/-- What the database does on the read side, beyond the contents of its tables:
whether `conn.Query` returns an error, after how many rows `rows.Next()` returns false
on an error of the row stream (`none`: the stream delivers every row of the result),
and whether `rows.Scan` fails on a row. -/
structure Reads where
  queryErr : Query → Bool
  delivered : Query → Option Nat
  scanOrdersErr : ordersRow → Bool
  scanItemsErr : itemsRow → Bool

/-- Rows the loop `for rows.Next()` receives from a result. -/
def deliver {α : Type} (cut : Option Nat) (rows : List α) : List α :=
  match cut with
  | none => rows
  | some n => rows.take n

/-- Rows of `SELECT ... FROM orders` (lines 194-203) as the loop receives them. -/
def queryOrders (rd : Reads) (s : Store) : Except String (List ordersRow) :=
  if rd.queryErr Query.selectOrders then Except.error "failed to query database"
  else Except.ok (deliver (rd.delivered Query.selectOrders) s.orders)

/-- Rows of `SELECT ... FROM items WHERE order_uid = $1` (lines 234-239) as the loop
receives them. -/
def queryItems (rd : Reads) (s : Store) (orderUid : String) : Except String (List itemsRow) :=
  if rd.queryErr (Query.selectItems orderUid) then Except.error "failed to query database"
  else
    Except.ok (deliver (rd.delivered (Query.selectItems orderUid))
      (s.items.filter (fun r => decide (r.order_uid = orderUid))))

/-- The `rows.Scan` of lines 248-250: the eleven selected columns into a `payloadItem`. -/
def scanItemsRow (r : itemsRow) : payloadItem :=
  { ChrtId := r.chrt_id, TrackNumber := r.track_number, Price := r.price, Rid := r.rid,
    Name := r.name, Sale := r.sale, Size := r.size, TotalPrice := r.total_price,
    NmId := r.nm_id, Brand := r.brand, Status := r.status }

/-- The `rows.Scan` of lines 213-218: the 28 selected columns into a `payload` whose
`Items` is still nil. -/
def scanOrdersRow (r : ordersRow) : payload :=
  { OrderUid := r.order_uid, TrackNumber := r.track_number, Entry := r.entry,
    Delivery :=
      { Name := r.delivery_name, Phone := r.delivery_phone, Zip := r.delivery_zip,
        City := r.delivery_city, Address := r.delivery_address, Region := r.delivery_region,
        Email := r.delivery_email },
    Payment :=
      { Transaction := r.payment_transaction, RequestId := r.payment_request_id,
        Currency := r.payment_currency, Provider := r.payment_provider,
        Amount := r.payment_amount, PaymentDt := r.payment_payment_dt, Bank := r.payment_bank,
        DeliveryCost := r.payment_delivery_cost, GoodsTotal := r.payment_goods_total,
        CustomFee := r.payment_custom_fee },
    Items := [],
    Locale := r.locale, InternalSignature := r.internal_signature,
    CustomerId := r.customer_id, DeliveryService := r.delivery_service,
    ShardKey := r.shardkey, SmId := r.sm_id, DateCreated := r.date_created,
    OofShard := r.oof_shard }

/-- The loop `for rows.Next()` of `scanItems` (lines 246-254) over the delivered rows. -/
def scanItemsLoop (rd : Reads) : List itemsRow → List payloadItem → Except String (List payloadItem)
  | [], items => Except.ok items
  | r :: rest, items =>
    if rd.scanItemsErr r then Except.error "failed to scan row"
    else scanItemsLoop rd rest (items ++ [scanItemsRow r])

/-- Function `scanItems` (lines 232-257). -/
def scanItems (rd : Reads) (s : Store) (orderUid : String) : Except String (List payloadItem) :=
  match queryItems rd s orderUid with
  | Except.error e => Except.error e
  | Except.ok rows => scanItemsLoop rd rows []

/-- The loop `for rows.Next()` of `initializeCache` (lines 210-227) over the delivered
rows. -/
def initializeCacheLoop (rd : Reads) (s : Store) : List ordersRow → Cache → Except String Cache
  | [], cache => Except.ok cache
  | r :: rest, cache =>
    if rd.scanOrdersErr r then Except.error "failed to scan row"
    else
      let value := scanOrdersRow r
      match scanItems rd s value.OrderUid with
      | Except.error e => Except.error ("failed scan items: " ++ e)
      | Except.ok items =>
        initializeCacheLoop rd s rest (cache.put value.OrderUid { value with Items := items })

/-- Function `initializeCache` (lines 191-230): the cache built from the store alone. -/
def initializeCache (rd : Reads) (s : Store) : Except String Cache :=
  match queryOrders rd s with
  | Except.error e => Except.error e
  | Except.ok rows => initializeCacheLoop rd s rows Cache.empty

/-! ## Notions used to state the properties -/

/-- The store after the header row of `p` and the rows of its first `k` items have been
added to `s`. -/
def afterRows (s : Store) (p : payload) (k : Nat) : Store :=
  { orders := s.orders ++ [ordersValues p],
    items := s.items ++ (p.Items.take k).map (itemsValues p.OrderUid) }

/-- The database executes the header insert of `p` on store `s`. -/
def headerAccepted (db : DB) (s : Store) (p : payload) : Prop :=
  db s (Stmt.insertOrders (ordersValues p)) = true

/-- The database executes the insert of item number `k` of `p` (counted from 0), on the
store `s` grown by the header row and the rows of the items before it. -/
def itemAccepted (db : DB) (s : Store) (p : payload) (k : Nat) : Prop :=
  ∀ item, p.Items[k]? = some item →
    db (afterRows s p k) (Stmt.insertItems (itemsValues p.OrderUid item)) = true

/-- The database rejects the insert of item number `k` of `p` (counted from 0), on the
store `s` grown by the header row and the rows of the items before it. -/
def itemRejected (db : DB) (s : Store) (p : payload) (k : Nat) : Prop :=
  ∃ item, p.Items[k]? = some item ∧
    db (afterRows s p k) (Stmt.insertItems (itemsValues p.OrderUid item)) = false

/-- Item rows of a store that carry the given `order_uid`. -/
def Store.itemsOf (s : Store) (orderUid : String) : List itemsRow :=
  s.items.filter (fun r => decide (r.order_uid = orderUid))

/-- Header rows of a store that carry the given `order_uid`. -/
def Store.ordersOf (s : Store) (orderUid : String) : List ordersRow :=
  s.orders.filter (fun r => decide (r.order_uid = orderUid))

/-! ## Concrete databases, states and messages -/

/-- A database that executes every statement. -/
def DB.acceptAll : DB := fun _ _ => true

/-- A database that executes inserts into `orders` and rejects inserts into `items`. -/
def DB.rejectItems : DB := fun _ q =>
  match q with
  | Stmt.insertOrders _ => true
  | Stmt.insertItems _ => false

/-- A database whose table `orders` has `order_uid` as its unique key: a header insert
is rejected when a row with that `order_uid` is present. -/
def DB.uniqueOrderUid : DB := fun s q =>
  match q with
  | Stmt.insertOrders r => !(s.orders.any (fun o => decide (o.order_uid = r.order_uid)))
  | Stmt.insertItems _ => true

/-- Read side on which every query and every scan succeeds. -/
def Reads.allOk : Reads :=
  { queryErr := fun _ => false, delivered := fun _ => none,
    scanOrdersErr := fun _ => false, scanItemsErr := fun _ => false }

/-- The empty store. -/
def Store.empty : Store := { orders := [], items := [] }

/-- A service with an empty store and an empty cache. -/
def State.empty : State := { store := Store.empty, cache := Cache.empty }

/-- Members of the message for order `A1`: track number `T1` and one item (charge id 1). -/
def membersA1 : List (String × Json) :=
  [("order_uid", Json.str "A1"), ("track_number", Json.str "T1"),
   ("items", Json.arr [Json.obj [("chrt_id", Json.int 1), ("price", Json.int 10)]])]

/-- Message for order `A1`. -/
def msgA1 : MsgData := MsgData.json (Json.obj membersA1)

/-- The aggregate `msgA1` decodes to. -/
def orderA1 : payload :=
  { payload.zero with
    OrderUid := "A1", TrackNumber := "T1",
    Items := [{ payloadItem.zero with ChrtId := 1, Price := 10 }] }

/-- Second message for order `A1`: track number `T2` and one item (charge id 2). -/
def msgA1second : MsgData :=
  MsgData.json (Json.obj
    [("order_uid", Json.str "A1"), ("track_number", Json.str "T2"),
     ("items", Json.arr [Json.obj [("chrt_id", Json.int 2), ("price", Json.int 20)]])])

/-- The aggregate `msgA1second` decodes to. -/
def orderA1second : payload :=
  { payload.zero with
    OrderUid := "A1", TrackNumber := "T2",
    Items := [{ payloadItem.zero with ChrtId := 2, Price := 20 }] }

/-- A well-formed JSON object whose `sm_id` is a string: a type error for the decoder. -/
def msgBadType : MsgData :=
  MsgData.json (Json.obj [("order_uid", Json.str "A1"), ("sm_id", Json.str "one")])

/-- Members of `msgA1` without its `order_uid` member. -/
def membersNoUid : List (String × Json) :=
  [("track_number", Json.str "T1"),
   ("items", Json.arr [Json.obj [("chrt_id", Json.int 1), ("price", Json.int 10)]])]

/-- A well-formed JSON object with no `order_uid`, no `delivery` and no `payment`. -/
def msgNoUid : MsgData := MsgData.json (Json.obj membersNoUid)

/-- The aggregate `msgNoUid` decodes to: `orderA1` with an empty order id. -/
def orderNoUid : payload := { orderA1 with OrderUid := "" }

/-- The aggregate the store determines for a header row: the header fields of the row,
and as items the item rows with the same `order_uid`, in table order. -/
def aggregateOf (s : Store) (r : ordersRow) : payload :=
  { scanOrdersRow r with Items := (s.itemsOf r.order_uid).map scanItemsRow }


/-- Members of a message for order `B2` that carries every key of the aggregate, with
two items. -/
def membersB2 : List (String × Json) :=
  [("order_uid", Json.str "B2"), ("track_number", Json.str "TRK2"), ("entry", Json.str "WBIL"),
   ("delivery", Json.obj
     [("name", Json.str "Ann"), ("phone", Json.str "+100"), ("zip", Json.str "263"),
      ("city", Json.str "Riga"), ("address", Json.str "Main 1"), ("region", Json.str "North"),
      ("email", Json.str "a@b.c")]),
   ("payment", Json.obj
     [("transaction", Json.str "B2"), ("request_id", Json.str "R7"),
      ("currency", Json.str "USD"), ("provider", Json.str "wbpay"), ("amount", Json.int 1817),
      ("payment_dt", Json.int 1637907727), ("bank", Json.str "alpha"),
      ("delivery_cost", Json.int 1500), ("goods_total", Json.int 317),
      ("custom_fee", Json.int 3)]),
   ("items", Json.arr
     [Json.obj
        [("chrt_id", Json.int 11), ("track_number", Json.str "TRK2"), ("price", Json.int 453),
         ("rid", Json.str "r1"), ("name", Json.str "Mascara"), ("sale", Json.int 30),
         ("size", Json.str "0"), ("total_price", Json.int 317), ("nm_id", Json.int 2389212),
         ("brand", Json.str "Vivienne"), ("status", Json.int 202)],
      Json.obj
        [("chrt_id", Json.int 12), ("track_number", Json.str "TRK2"), ("price", Json.int 100),
         ("rid", Json.str "r2"), ("name", Json.str "Brush"), ("sale", Json.int 5),
         ("size", Json.str "M"), ("total_price", Json.int 95), ("nm_id", Json.int 77),
         ("brand", Json.str "Acme"), ("status", Json.int 201)]]),
   ("locale", Json.str "en"), ("internal_signature", Json.str "sig"),
   ("customer_id", Json.str "test"), ("delivery_service", Json.str "meest"),
   ("shardkey", Json.str "9"), ("sm_id", Json.int 99),
   ("date_created", Json.str "2021-11-26T06:22:19Z"), ("oof_shard", Json.str "1")]

/-- Message for order `B2`. -/
def msgB2 : MsgData := MsgData.json (Json.obj membersB2)

/-- The aggregate `msgB2` decodes to. -/
def orderB2 : payload :=
  { OrderUid := "B2", TrackNumber := "TRK2", Entry := "WBIL",
    Delivery :=
      { Name := "Ann", Phone := "+100", Zip := "263", City := "Riga", Address := "Main 1",
        Region := "North", Email := "a@b.c" },
    Payment :=
      { Transaction := "B2", RequestId := "R7", Currency := "USD", Provider := "wbpay",
        Amount := 1817, PaymentDt := 1637907727, Bank := "alpha", DeliveryCost := 1500,
        GoodsTotal := 317, CustomFee := 3 },
    Items :=
      [{ ChrtId := 11, TrackNumber := "TRK2", Price := 453, Rid := "r1", Name := "Mascara",
         Sale := 30, Size := "0", TotalPrice := 317, NmId := 2389212, Brand := "Vivienne",
         Status := 202 },
       { ChrtId := 12, TrackNumber := "TRK2", Price := 100, Rid := "r2", Name := "Brush",
         Sale := 5, Size := "M", TotalPrice := 95, NmId := 77, Brand := "Acme",
         Status := 201 }],
    Locale := "en", InternalSignature := "sig", CustomerId := "test",
    DeliveryService := "meest", ShardKey := "9", SmId := 99,
    DateCreated := "2021-11-26T06:22:19Z", OofShard := "1" }

/-- The store after `msgA1`, `msgB2` and the second message for `A1` were ingested by a
database that executes everything, with the header row of the second `A1` message left
out: two header rows with distinct order ids, and the item rows of `A1` and `B2`
interleaved. -/
def storeTwoOrders : Store :=
  { orders := [ordersValues orderA1, ordersValues orderB2],
    items := orderA1.Items.map (itemsValues "A1") ++ orderB2.Items.map (itemsValues "B2") ++
      orderA1second.Items.map (itemsValues "A1") }

/-- The aggregate `storeTwoOrders` determines for `A1`: the header of `orderA1` with the
two item rows stored for `A1`. -/
def orderA1stored : payload :=
  { orderA1 with Items := orderA1.Items ++ orderA1second.Items }

mutual
/-- `Json.Pruned fewer v`: the value `fewer` is the value `v` with members of objects
left out, at any depth; array elements are pruned one by one and none is left out. -/
inductive Json.Pruned : Json → Json → Prop where
  | same (v : Json) : Json.Pruned v v
  | obj {fewer members : List (String × Json)} :
      MembersPruned fewer members → Json.Pruned (Json.obj fewer) (Json.obj members)
  | arr {fewer elems : List Json} :
      ElemsPruned fewer elems → Json.Pruned (Json.arr fewer) (Json.arr elems)
/-- `MembersPruned fewer members`: the member list `fewer` is `members` with some members
left out and the values of the others pruned. -/
inductive MembersPruned : List (String × Json) → List (String × Json) → Prop where
  | nil : MembersPruned [] []
  | drop (kv : String × Json) {fewer members : List (String × Json)} :
      MembersPruned fewer members → MembersPruned fewer (kv :: members)
  | keep (k : String) {w v : Json} {fewer members : List (String × Json)} :
      Json.Pruned w v → MembersPruned fewer members →
      MembersPruned ((k, w) :: fewer) ((k, v) :: members)
/-- `ElemsPruned fewer elems`: the elements of `fewer` are those of `elems`, each pruned. -/
inductive ElemsPruned : List Json → List Json → Prop where
  | nil : ElemsPruned [] []
  | cons {w v : Json} {fewer elems : List Json} :
      Json.Pruned w v → ElemsPruned fewer elems → ElemsPruned (w :: fewer) (v :: elems)
end

/-- Members of `msgB2` without `order_uid`, without the whole `payment` object, without
`zip` inside `delivery` and without `price` inside the first item. -/
def membersSparse : List (String × Json) :=
  [("track_number", Json.str "TRK2"), ("entry", Json.str "WBIL"),
   ("delivery", Json.obj
     [("name", Json.str "Ann"), ("phone", Json.str "+100"),
      ("city", Json.str "Riga"), ("address", Json.str "Main 1"), ("region", Json.str "North"),
      ("email", Json.str "a@b.c")]),
   ("items", Json.arr
     [Json.obj
        [("chrt_id", Json.int 11), ("track_number", Json.str "TRK2"),
         ("rid", Json.str "r1"), ("name", Json.str "Mascara"), ("sale", Json.int 30),
         ("size", Json.str "0"), ("total_price", Json.int 317), ("nm_id", Json.int 2389212),
         ("brand", Json.str "Vivienne"), ("status", Json.int 202)],
      Json.obj
        [("chrt_id", Json.int 12), ("track_number", Json.str "TRK2"), ("price", Json.int 100),
         ("rid", Json.str "r2"), ("name", Json.str "Brush"), ("sale", Json.int 5),
         ("size", Json.str "M"), ("total_price", Json.int 95), ("nm_id", Json.int 77),
         ("brand", Json.str "Acme"), ("status", Json.int 201)]]),
   ("locale", Json.str "en"), ("internal_signature", Json.str "sig"),
   ("customer_id", Json.str "test"), ("delivery_service", Json.str "meest"),
   ("shardkey", Json.str "9"), ("sm_id", Json.int 99),
   ("date_created", Json.str "2021-11-26T06:22:19Z"), ("oof_shard", Json.str "1")]

/-- The aggregate the object `membersSparse` decodes to: `orderB2` with zero values in
the fields of the keys left out. -/
def orderSparse : payload :=
  { orderB2 with
    OrderUid := "",
    Delivery := { orderB2.Delivery with Zip := "" },
    Payment := payloadPayment.zero,
    Items :=
      [{ ChrtId := 11, TrackNumber := "TRK2", Price := 0, Rid := "r1", Name := "Mascara",
         Sale := 30, Size := "0", TotalPrice := 317, NmId := 2389212, Brand := "Vivienne",
         Status := 202 },
       { ChrtId := 12, TrackNumber := "TRK2", Price := 100, Rid := "r2", Name := "Brush",
         Sale := 5, Size := "M", TotalPrice := 95, NmId := 77, Brand := "Acme",
         Status := 201 }] }

/-! ## Lemmas on the database and the item loop -/

/-- The item loop on a database that executes each of its inserts: every row is added
and the loop runs to its end. -/
theorem insertItems_all_accepted (db : DB) (orderUid : String) :
    ∀ (items : List payloadItem) (s : Store),
      (∀ k item, items[k]? = some item →
        db { s with items := s.items ++ (items.take k).map (itemsValues orderUid) }
          (Stmt.insertItems (itemsValues orderUid item)) = true) →
      insertItems db orderUid items s =
        ({ s with items := s.items ++ items.map (itemsValues orderUid) }, true) := by
  intro items
  induction items with
  | nil => intro s _; simp [insertItems]
  | cons x rest ih =>
    intro s h
    have h0 := h 0 x (by simp)
    simp only [List.take_zero, List.map_nil, List.append_nil] at h0
    have hrest := ih { s with items := s.items ++ [itemsValues orderUid x] } (by
      intro k item hk
      have := h (k + 1) item (by simpa using hk)
      simpa using this)
    simp only [insertItems, Exec, h0, if_true, Stmt.apply]
    rw [hrest]
    simp

/-- The item loop on a database that rejects the insert of item `k` after executing
the inserts before it: the rows of the first `k` items are added and the loop stops. -/
theorem insertItems_first_rejected (db : DB) (orderUid : String) :
    ∀ (items : List payloadItem) (s : Store) (k : Nat) (item : payloadItem),
      items[k]? = some item →
      (∀ j it, j < k → items[j]? = some it →
        db { s with items := s.items ++ (items.take j).map (itemsValues orderUid) }
          (Stmt.insertItems (itemsValues orderUid it)) = true) →
      db { s with items := s.items ++ (items.take k).map (itemsValues orderUid) }
          (Stmt.insertItems (itemsValues orderUid item)) = false →
      insertItems db orderUid items s =
        ({ s with items := s.items ++ (items.take k).map (itemsValues orderUid) }, false) := by
  intro items
  induction items with
  | nil => intro s k item hk; simp at hk
  | cons x rest ih =>
    intro s k item hk hbefore hrej
    cases k with
    | zero =>
      simp only [List.getElem?_cons_zero, Option.some.injEq] at hk
      subst hk
      simp only [List.take_zero, List.map_nil, List.append_nil] at hrej
      simp [insertItems, Exec, hrej]
    | succ k =>
      have h0 := hbefore 0 x (Nat.succ_pos k) (by simp)
      simp only [List.take_zero, List.map_nil, List.append_nil] at h0
      have hrest := ih { s with items := s.items ++ [itemsValues orderUid x] } k item
        (by simpa using hk)
        (by
          intro j it hj hit
          have := hbefore (j + 1) it (Nat.succ_lt_succ hj) (by simpa using hit)
          simpa using this)
        (by simpa using hrej)
      simp only [insertItems, Exec, h0, if_true, Stmt.apply]
      rw [hrest]
      simp

/-- When the item loop runs to its end, the database executed each of its inserts. -/
theorem insertItems_flag_true (db : DB) (orderUid : String) :
    ∀ (items : List payloadItem) (s : Store),
      (insertItems db orderUid items s).2 = true →
      ∀ k item, items[k]? = some item →
        db { s with items := s.items ++ (items.take k).map (itemsValues orderUid) }
          (Stmt.insertItems (itemsValues orderUid item)) = true := by
  intro items
  induction items with
  | nil => intro s _ k item hk; simp at hk
  | cons x rest ih =>
    intro s hflag k item hk
    by_cases h0 : db s (Stmt.insertItems (itemsValues orderUid x)) = true
    · simp only [insertItems, Exec, h0, if_true, Stmt.apply] at hflag
      cases k with
      | zero =>
        simp only [List.getElem?_cons_zero, Option.some.injEq] at hk
        subst hk
        simpa using h0
      | succ k =>
        have := ih _ hflag k item (by simpa using hk)
        simpa using this
    · simp [insertItems, Exec, h0] at hflag

/-! ## Lemmas on the subscription handler -/

theorem Cache.put_same (cache : Cache) (key : String) (value : payload) :
    cache.put key value key = some value := by
  simp [Cache.put]

theorem Cache.put_other (cache : Cache) (key k : String) (value : payload) (h : k ≠ key) :
    cache.put key value k = cache k := by
  simp [Cache.put, h]

/-- The handler on a message whose header insert is rejected: nothing changes. -/
theorem handler_header_rejected (db : DB) (st : State) (m : MsgData) (p : payload)
    (hdec : Unmarshal m = some p) (hrej : ¬ headerAccepted db st.store p) :
    handler db st m = st := by
  have h : db st.store (Stmt.insertOrders (ordersValues p)) = false := by
    simpa [headerAccepted] using hrej
  simp [handler, hdec, Exec, h]

/-- The handler on a message all of whose inserts are executed: header row and item
rows are added, and the cache maps the order id to the aggregate. -/
theorem handler_persisted (db : DB) (st : State) (m : MsgData) (p : payload)
    (hdec : Unmarshal m = some p) (hh : headerAccepted db st.store p)
    (hi : ∀ k, itemAccepted db st.store p k) :
    handler db st m =
      { store := afterRows st.store p p.Items.length, cache := st.cache.put p.OrderUid p } := by
  have hloop := insertItems_all_accepted db p.OrderUid p.Items
    ((Stmt.insertOrders (ordersValues p)).apply st.store)
    (by
      intro k item hk
      have := hi k item hk
      simpa [afterRows, Stmt.apply] using this)
  have hh1 : db st.store (Stmt.insertOrders (ordersValues p)) = true := hh
  simp only [handler, hdec, Exec, hh1, if_true]
  rw [hloop]
  simp [afterRows, Stmt.apply]

/-- The handler on a message whose header insert and first `k` item inserts are executed
and whose next item insert is rejected: the rows written so far stay, the cache is as
before. -/
theorem handler_item_rejected (db : DB) (st : State) (m : MsgData) (p : payload) (k : Nat)
    (hdec : Unmarshal m = some p) (hh : headerAccepted db st.store p)
    (hbefore : ∀ j, j < k → itemAccepted db st.store p j)
    (hrej : itemRejected db st.store p k) :
    handler db st m = { store := afterRows st.store p k, cache := st.cache } := by
  obtain ⟨item, hk, hdb⟩ := hrej
  have hloop := insertItems_first_rejected db p.OrderUid p.Items
    ((Stmt.insertOrders (ordersValues p)).apply st.store) k item hk
    (by
      intro j it hj hit
      have := hbefore j hj it hit
      simpa [afterRows, Stmt.apply] using this)
    (by simpa [afterRows, Stmt.apply] using hdb)
  have hh1 : db st.store (Stmt.insertOrders (ordersValues p)) = true := hh
  simp only [handler, hdec, Exec, hh1, if_true]
  rw [hloop]
  simp [afterRows, Stmt.apply]

/-- The handler changes the cache only when the header insert is executed and the item
loop runs to its end. -/
theorem handler_cache_eq_of_not_persisted (db : DB) (st : State) (m : MsgData) (p : payload)
    (hdec : Unmarshal m = some p)
    (hfail : ¬ headerAccepted db st.store p ∨ ∃ k, itemRejected db st.store p k) :
    (handler db st m).cache = st.cache := by
  by_cases hh : headerAccepted db st.store p
  · rcases hfail with hfail | ⟨k, item, hk, hdb⟩
    · exact absurd hh hfail
    · have hh1 : db st.store (Stmt.insertOrders (ordersValues p)) = true := hh
      cases hflag : (insertItems db p.OrderUid p.Items
          ((Stmt.insertOrders (ordersValues p)).apply st.store)).2 with
      | false =>
        simp only [handler, hdec, Exec, hh1, if_true]
        split
        · rfl
        · rename_i s2 heq
          rw [heq] at hflag
          simp at hflag
      | true =>
        have := insertItems_flag_true db p.OrderUid p.Items _ hflag k item hk
        have hacc : db (afterRows st.store p k)
            (Stmt.insertItems (itemsValues p.OrderUid item)) = true := by
          simpa [afterRows, Stmt.apply] using this
        rw [hacc] at hdb
        exact absurd hdb (by simp)
  · rw [handler_header_rejected db st m p hdec hh]

/-! ## Decoding objects that lack keys -/

/-- A key that addresses the field `OrderUid` equals `order_uid` up to case folding. -/
theorem findField_OrderUid (key : String)
    (h : findField payload.fields key = some payload.Field.OrderUid) :
    foldName key = foldName "order_uid" := by
  unfold findField at h
  split at h
  · rename_i f hf
    have hmem := List.mem_of_find?_eq_some hf
    have hp := List.find?_some hf
    simp only [Option.some.injEq] at h
    simp only [decide_eq_true_eq] at hp
    simp only [payload.fields, List.mem_cons, List.mem_singleton, List.not_mem_nil,
      or_false] at hmem
    rcases hmem with rfl | rfl | rfl | rfl | rfl | rfl | rfl | rfl | rfl | rfl | rfl | rfl |
      rfl | rfl <;> simp_all
  · split at h
    · rename_i f hf
      have hmem := List.mem_of_find?_eq_some hf
      have hp := List.find?_some hf
      simp only [Option.some.injEq] at h
      simp only [decide_eq_true_eq] at hp
      simp only [payload.fields, List.mem_cons, List.mem_singleton, List.not_mem_nil,
        or_false] at hmem
      rcases hmem with rfl | rfl | rfl | rfl | rfl | rfl | rfl | rfl | rfl | rfl | rfl | rfl |
        rfl | rfl <;> simp_all
    · simp at h

/-- Storing into a field other than `OrderUid` leaves `OrderUid` as it is. -/
theorem setField_OrderUid (d next : Decoding) (f : payload.Field) (v : Json)
    (hf : f ≠ payload.Field.OrderUid) (h : d.setField f v = some next) :
    next.value.OrderUid = d.value.OrderUid := by
  cases f <;> first
    | exact absurd rfl hf
    | (simp only [Decoding.setField, Option.map_eq_some'] at h
       obtain ⟨x, _, rfl⟩ := h
       rfl)

/-- Decoding members none of which addresses `OrderUid` leaves `OrderUid` as it is. -/
theorem decodeMembers_OrderUid :
    ∀ (members : List (String × Json)) (cur d : Decoding),
      (∀ kv ∈ members, foldName kv.1 ≠ foldName "order_uid") →
      decodeMembers payload.fields Decoding.setField cur members = some d →
      d.value.OrderUid = cur.value.OrderUid := by
  intro members
  induction members with
  | nil =>
    intro cur d _ h
    simp only [decodeMembers, Option.some.injEq] at h
    rw [h]
  | cons kv rest ih =>
    intro cur d hmissing h
    obtain ⟨k, v⟩ := kv
    have hk : foldName k ≠ foldName "order_uid" := hmissing (k, v) (List.mem_cons_self _ _)
    have hrest : ∀ kv ∈ rest, foldName kv.1 ≠ foldName "order_uid" :=
      fun kv hkv => hmissing kv (List.mem_cons_of_mem _ hkv)
    simp only [decodeMembers] at h
    cases hfield : findField payload.fields k with
    | none =>
      simp only [hfield] at h
      exact ih cur d hrest h
    | some f =>
      simp only [hfield] at h
      have hf : f ≠ payload.Field.OrderUid := by
        intro hEq
        rw [hEq] at hfield
        exact hk (findField_OrderUid k hfield)
      cases hset : cur.setField f v with
      | none => simp [hset] at h
      | some next =>
        simp only [hset] at h
        rw [ih next d hrest h, setField_OrderUid cur next f v hf hset]

/-- A value that can be stored into a `string` field can still be stored after pruning,
whatever the field holds. -/
theorem decodeString_pruned (c c' : String) {w v : Json} (hp : Json.Pruned w v)
    (h : (decodeString c v).isSome = true) : (decodeString c' w).isSome = true := by
  cases hp with
  | same => cases w <;> first | rfl | simp [decodeString] at h
  | obj _ => simp [decodeString] at h
  | arr _ => simp [decodeString] at h

/-- A value that can be stored into an `int` field can still be stored after pruning,
whatever the field holds. -/
theorem decodeInt_pruned (c c' : Int) {w v : Json} (hp : Json.Pruned w v)
    (h : (decodeInt c v).isSome = true) : (decodeInt c' w).isSome = true := by
  cases hp with
  | same => cases w <;> first | rfl | exact h
  | obj _ => simp [decodeInt] at h
  | arr _ => simp [decodeInt] at h

/-- Members that decode into a struct still decode after pruning, whatever the struct
holds, when that is so for each field. -/
theorem decodeMembers_pruned {S F : Type} (fields : List (String × F))
    (setField : S → F → Json → Option S)
    (hset : ∀ (c c' : S) (f : F) (w v : Json), Json.Pruned w v →
      (setField c f v).isSome = true → (setField c' f w).isSome = true) :
    ∀ (members fewer : List (String × Json)) (c c' : S), MembersPruned fewer members →
      (decodeMembers fields setField c members).isSome = true →
      (decodeMembers fields setField c' fewer).isSome = true := by
  intro members
  induction members with
  | nil =>
    intro fewer c c' hm _
    cases hm
    rfl
  | cons kv rest ih =>
    intro fewer c c' hm h
    cases hm with
    | drop _ hrest =>
      obtain ⟨k, v⟩ := kv
      simp only [decodeMembers] at h
      cases hfield : findField fields k with
      | none =>
        simp only [hfield] at h
        exact ih _ c c' hrest h
      | some f =>
        simp only [hfield] at h
        cases h1 : setField c f v with
        | none => simp [h1] at h
        | some next =>
          simp only [h1] at h
          exact ih _ next c' hrest h
    | @keep k w v fewer' _ hv hrest =>
      simp only [decodeMembers] at h ⊢
      cases hfield : findField fields k with
      | none =>
        simp only [hfield] at h ⊢
        exact ih _ c c' hrest h
      | some f =>
        simp only [hfield] at h ⊢
        cases h1 : setField c f v with
        | none => simp [h1] at h
        | some next =>
          simp only [h1] at h
          have hs := hset c c' f w v hv (by rw [h1]; rfl)
          cases h2 : setField c' f w with
          | none => rw [h2] at hs; simp at hs
          | some next' =>
            simp only [h2]
            exact ih _ next next' hrest h

/-- A value that can be stored into a struct can still be stored after pruning, whatever
the struct holds, when that is so for each field. -/
theorem decodeStruct_pruned {S F : Type} (fields : List (String × F))
    (setField : S → F → Json → Option S)
    (hset : ∀ (c c' : S) (f : F) (w v : Json), Json.Pruned w v →
      (setField c f v).isSome = true → (setField c' f w).isSome = true)
    (c c' : S) {w v : Json} (hp : Json.Pruned w v)
    (h : (decodeStruct fields setField c v).isSome = true) :
    (decodeStruct fields setField c' w).isSome = true := by
  cases hp with
  | same =>
    cases w with
    | null => rfl
    | obj members =>
      have hsame : ∀ ms : List (String × Json), MembersPruned ms ms := by
        intro ms
        induction ms with
        | nil => exact MembersPruned.nil
        | cons kv rest ihr =>
          obtain ⟨k, x⟩ := kv
          exact MembersPruned.keep k (Json.Pruned.same x) ihr
      exact decodeMembers_pruned fields setField hset members members c c' (hsame members) h
    | bool _ => simp [decodeStruct] at h
    | int _ => simp [decodeStruct] at h
    | frac _ => simp [decodeStruct] at h
    | str _ => simp [decodeStruct] at h
    | arr _ => simp [decodeStruct] at h
  | obj hm => exact decodeMembers_pruned fields setField hset _ _ c c' hm h
  | arr _ => simp [decodeStruct] at h

theorem deliverySetField_pruned (c c' : payloadDelivery) (f : payloadDelivery.Field)
    (w v : Json) (hp : Json.Pruned w v) (h : (c.setField f v).isSome = true) :
    (c'.setField f w).isSome = true := by
  cases f <;> simp only [payloadDelivery.setField, Option.isSome_map'] at h ⊢ <;>
    exact decodeString_pruned _ _ hp h

theorem paymentSetField_pruned (c c' : payloadPayment) (f : payloadPayment.Field)
    (w v : Json) (hp : Json.Pruned w v) (h : (c.setField f v).isSome = true) :
    (c'.setField f w).isSome = true := by
  cases f <;> simp only [payloadPayment.setField, Option.isSome_map'] at h ⊢ <;> first
    | exact decodeString_pruned _ _ hp h
    | exact decodeInt_pruned _ _ hp h

theorem itemSetField_pruned (c c' : payloadItem) (f : payloadItem.Field)
    (w v : Json) (hp : Json.Pruned w v) (h : (c.setField f v).isSome = true) :
    (c'.setField f w).isSome = true := by
  cases f <;> simp only [payloadItem.setField, Option.isSome_map'] at h ⊢ <;> first
    | exact decodeString_pruned _ _ hp h
    | exact decodeInt_pruned _ _ hp h

/-- Array elements that decode into items still decode after pruning, whatever the backing
array holds. -/
theorem decodeElems_pruned :
    ∀ (elems fewer : List Json) (backing backing' : List payloadItem),
      ElemsPruned fewer elems → (decodeElems backing elems).isSome = true →
      (decodeElems backing' fewer).isSome = true := by
  intro elems
  induction elems with
  | nil =>
    intro fewer backing backing' he _
    cases he
    rfl
  | cons e rest ih =>
    intro fewer backing backing' he h
    cases he with
    | @cons w _ fewer' _ hw hrest =>
      simp only [decodeElems] at h ⊢
      cases h1 : decodeStruct payloadItem.fields payloadItem.setField
          (backing.head?.getD payloadItem.zero) e with
      | none => simp [h1] at h
      | some i =>
        simp only [h1] at h
        have hs := decodeStruct_pruned payloadItem.fields payloadItem.setField
          itemSetField_pruned (backing.head?.getD payloadItem.zero)
          (backing'.head?.getD payloadItem.zero) hw (by rw [h1]; rfl)
        cases h2 : decodeStruct payloadItem.fields payloadItem.setField
            (backing'.head?.getD payloadItem.zero) w with
        | none => rw [h2] at hs; simp at hs
        | some i' =>
          simp only [h2]
          cases h3 : decodeElems backing.tail rest with
          | none => simp [h3] at h
          | some is =>
            have hr := ih fewer' backing.tail backing'.tail hrest (by rw [h3]; rfl)
            cases h4 : decodeElems backing'.tail fewer' with
            | none => rw [h4] at hr; simp at hr
            | some is' => rfl

/-- Every list of elements is a pruning of itself. -/
theorem ElemsPruned.same : ∀ (elems : List Json), ElemsPruned elems elems := by
  intro elems
  induction elems with
  | nil => exact ElemsPruned.nil
  | cons e rest ih => exact ElemsPruned.cons (Json.Pruned.same e) ih

/-- A value that can be stored into `Items` can still be stored after pruning, whatever
the slice and its backing array hold. -/
theorem decodeItems_pruned (c s c' s' : List payloadItem) {w v : Json}
    (hp : Json.Pruned w v) (h : (decodeItems c s v).isSome = true) :
    (decodeItems c' s' w).isSome = true := by
  have harr : ∀ (elems fewer : List Json), ElemsPruned fewer elems →
      (decodeItems c s (Json.arr elems)).isSome = true →
      (decodeItems c' s' (Json.arr fewer)).isSome = true := by
    intro elems fewer he h
    cases he with
    | nil => rfl
    | @cons w0 v0 fewer' elems' hw hrest =>
      simp only [decodeItems, Option.isSome_map'] at h ⊢
      exact decodeElems_pruned _ _ _ _ (ElemsPruned.cons hw hrest) h
  cases hp with
  | same =>
    cases w with
    | null => rfl
    | arr elems => exact harr elems elems (ElemsPruned.same elems) h
    | bool _ => simp [decodeItems] at h
    | int _ => simp [decodeItems] at h
    | frac _ => simp [decodeItems] at h
    | str _ => simp [decodeItems] at h
    | obj _ => simp [decodeItems] at h
  | obj _ => simp [decodeItems] at h
  | arr he => exact harr _ _ he h

theorem payloadSetField_pruned (c c' : Decoding) (f : payload.Field)
    (w v : Json) (hp : Json.Pruned w v) (h : (c.setField f v).isSome = true) :
    (c'.setField f w).isSome = true := by
  cases f <;> simp only [Decoding.setField, Option.isSome_map'] at h ⊢ <;> first
    | exact decodeString_pruned _ _ hp h
    | exact decodeInt_pruned _ _ hp h
    | exact decodeItems_pruned _ _ _ _ hp h
    | exact decodeStruct_pruned _ _ deliverySetField_pruned _ _ hp h
    | exact decodeStruct_pruned _ _ paymentSetField_pruned _ _ hp h

/-! ## Ingestion: decode failure, persistence failure, success -/

/-- Claim C7 (decode failure has no effect): for every database, every state and every
message body that `json.Unmarshal` rejects, the handler returns the state it was given:
the store is as before (also on a database that would execute every statement, so no
insert was issued) and the cache is as before. -/
theorem decode_failure_no_effect (db : DB) (st : State) (m : MsgData)
    (hdec : Unmarshal m = none) :
    handler db st m = st ∧ (handler db st m).store = st.store ∧
      (handler db st m).cache = st.cache := by
  have h : handler db st m = st := by simp [handler, hdec]
  rw [h]
  exact ⟨rfl, rfl, rfl⟩

/-- Claim C7 at a concrete input: text that is not JSON, offered to a database that
executes everything, after order `A1` was ingested. -/
theorem decode_failure_no_effect_witness :
    Unmarshal MsgData.invalid = none ∧
      (handler DB.acceptAll (handler DB.acceptAll State.empty msgA1) MsgData.invalid).store
        = (handler DB.acceptAll State.empty msgA1).store :=
  ⟨rfl, (decode_failure_no_effect DB.acceptAll (handler DB.acceptAll State.empty msgA1)
    MsgData.invalid rfl).2.1⟩

/-- Claim C1 (durability before visibility): for every database, state and message that
decodes to `p`, if the header insert is rejected or some item insert is rejected, the
cache after the handler is the cache before it, and the lookup route answers every
order id as it did before the message. -/
theorem cache_unchanged_when_insert_fails (db : DB) (st : State) (m : MsgData) (p : payload)
    (hdec : Unmarshal m = some p)
    (hfail : ¬ headerAccepted db st.store p ∨ ∃ k, itemRejected db st.store p k) :
    (handler db st m).cache = st.cache ∧
      ∀ orderID, (getOrder (handler db st m).cache orderID).1 = (getOrder st.cache orderID).1 := by
  have h := handler_cache_eq_of_not_persisted db st m p hdec hfail
  refine ⟨h, ?_⟩
  intro orderID
  rw [h]

/-- Claim C1 at a concrete input: order `A1` is cached, then a second message for `A1`
meets a database that rejects its item insert; the lookup still answers the first
version. -/
theorem cache_unchanged_when_insert_fails_witness :
    Unmarshal msgA1second = some orderA1second ∧
      itemRejected DB.rejectItems (handler DB.acceptAll State.empty msgA1).store orderA1second 0 ∧
      (getOrder (handler DB.rejectItems (handler DB.acceptAll State.empty msgA1)
        msgA1second).cache "A1").1 = { code := 200, body := Body.order orderA1 } :=
  ⟨by decide, ⟨_, rfl, rfl⟩,
    ((cache_unchanged_when_insert_fails DB.rejectItems (handler DB.acceptAll State.empty msgA1)
      msgA1second orderA1second (by decide) (Or.inr ⟨0, _, rfl, rfl⟩)).2 "A1").trans
      (by decide)⟩

/-- Claim C2 (round trip): for every database, state and message that decodes to `p`, if
the header insert and every item insert are executed, the lookup of `p.OrderUid` in the
resulting cache answers 200 with `p` itself, items in the same order. -/
theorem round_trip (db : DB) (st : State) (m : MsgData) (p : payload)
    (hdec : Unmarshal m = some p) (hh : headerAccepted db st.store p)
    (hi : ∀ k, itemAccepted db st.store p k) :
    (handler db st m).cache p.OrderUid = some p ∧
      (getOrder (handler db st m).cache p.OrderUid).1 =
        { code := StatusOK, body := Body.order p } := by
  rw [handler_persisted db st m p hdec hh hi]
  simp [getOrder, Cache.put]

/-- Claim C2 at a concrete input: message `msgA1` on an empty service whose database
executes everything. -/
theorem round_trip_witness :
    Unmarshal msgA1 = some orderA1 ∧
      (getOrder (handler DB.acceptAll State.empty msgA1).cache "A1").1 =
        { code := 200, body := Body.order orderA1 } :=
  ⟨by decide,
    (round_trip DB.acceptAll State.empty msgA1 orderA1 (by decide) rfl
      (fun _ _ _ => rfl)).2⟩

/-! ## The store after a failed or a repeated ingestion -/

/-- Claim C3 fails as stated: on a database that executes the header insert and rejects
the item insert, the handler leaves the header row of `A1` in a store that had no row
for `A1` before. -/
theorem upsert_atomicity_counterexample :
    Unmarshal msgA1 = some orderA1 ∧
      headerAccepted DB.rejectItems State.empty.store orderA1 ∧
      itemRejected DB.rejectItems State.empty.store orderA1 0 ∧
      State.empty.store.ordersOf "A1" = [] ∧
      (handler DB.rejectItems State.empty msgA1).store.ordersOf "A1" = [ordersValues orderA1] :=
  ⟨by decide, rfl, ⟨_, rfl, rfl⟩, by decide, by decide⟩

/-- Claim C3 as amended: for every database, state and message that decodes to `p`, a
rejected header insert leaves the whole state as it was; when the header insert and the
inserts of the first `k` items are executed and the insert of item `k` is rejected, the
cache is as before, and the store is the store before the message plus the header row
of `p` and the rows of its first `k` items (nothing is rolled back), so the header rows
for the order id are the earlier ones followed by the new one. -/
theorem failed_persist_keeps_written_rows (db : DB) (st : State) (m : MsgData) (p : payload)
    (hdec : Unmarshal m = some p) :
    (¬ headerAccepted db st.store p → handler db st m = st) ∧
      ∀ k, headerAccepted db st.store p → (∀ j, j < k → itemAccepted db st.store p j) →
        itemRejected db st.store p k →
        (handler db st m).cache = st.cache ∧
          (handler db st m).store = afterRows st.store p k ∧
          (handler db st m).store.ordersOf p.OrderUid =
            st.store.ordersOf p.OrderUid ++ [ordersValues p] := by
  refine ⟨handler_header_rejected db st m p hdec, ?_⟩
  intro k hh hbefore hrej
  rw [handler_item_rejected db st m p k hdec hh hbefore hrej]
  refine ⟨rfl, rfl, ?_⟩
  simp [Store.ordersOf, afterRows, List.filter_append, ordersValues]

/-- Claim C3 as amended, at a concrete input: `msgA1` on an empty store whose database
rejects the item insert; the store keeps the header row and no item row. -/
theorem failed_persist_keeps_written_rows_witness :
    Unmarshal msgA1 = some orderA1 ∧
      (handler DB.rejectItems State.empty msgA1).store =
        { orders := [ordersValues orderA1], items := [] } :=
  ⟨by decide,
    ((failed_persist_keeps_written_rows DB.rejectItems State.empty msgA1 orderA1
      (by decide)).2 0 rfl (fun _ hj => absurd hj (Nat.not_lt_zero _))
      ⟨_, rfl, rfl⟩).2.1.trans (by decide)⟩

/-- Claim C5 fails as stated: with item rows for `A1` in the store, a second message for
`A1` whose inserts are all executed leaves the earlier item row next to the new one, and
two header rows for `A1`. -/
theorem reupsert_replaces_items_counterexample :
    Unmarshal msgA1second = some orderA1second ∧
      (handler DB.acceptAll State.empty msgA1).store.itemsOf "A1" ≠ [] ∧
      headerAccepted DB.acceptAll (handler DB.acceptAll State.empty msgA1).store orderA1second ∧
      (handler DB.acceptAll (handler DB.acceptAll State.empty msgA1) msgA1second).store.itemsOf "A1"
        ≠ orderA1second.Items.map (itemsValues "A1") ∧
      (handler DB.acceptAll (handler DB.acceptAll State.empty msgA1) msgA1second).store.itemsOf "A1"
        = orderA1.Items.map (itemsValues "A1") ++ orderA1second.Items.map (itemsValues "A1") ∧
      ((handler DB.acceptAll (handler DB.acceptAll State.empty msgA1)
        msgA1second).store.ordersOf "A1").length = 2 :=
  ⟨by decide, by decide, rfl, by decide, by decide, by decide⟩

/-- Claim C5 as amended: for every database, state and message that decodes to `p` and
whose inserts are all executed, the item rows stored for the order id afterwards are the
item rows stored for it before, followed by the rows of the items of `p`; the header
rows for the order id are the earlier ones followed by the header row of `p`.  Earlier
rows are kept, not replaced. -/
theorem reupsert_appends_rows (db : DB) (st : State) (m : MsgData) (p : payload)
    (hdec : Unmarshal m = some p) (hh : headerAccepted db st.store p)
    (hi : ∀ k, itemAccepted db st.store p k) :
    (handler db st m).store.itemsOf p.OrderUid =
        st.store.itemsOf p.OrderUid ++ p.Items.map (itemsValues p.OrderUid) ∧
      (handler db st m).store.ordersOf p.OrderUid =
        st.store.ordersOf p.OrderUid ++ [ordersValues p] := by
  rw [handler_persisted db st m p hdec hh hi]
  constructor
  · simp only [Store.itemsOf, afterRows, List.take_length, List.filter_append]
    congr 1
    rw [List.filter_eq_self]
    intro r hr
    obtain ⟨item, _, rfl⟩ := List.mem_map.mp hr
    simp [itemsValues]
  · simp [Store.ordersOf, afterRows, List.filter_append, ordersValues]

/-- Claim C5 as amended, at a concrete input: the second message for `A1` on the store
that holds the rows of the first. -/
theorem reupsert_appends_rows_witness :
    Unmarshal msgA1second = some orderA1second ∧
      (handler DB.acceptAll (handler DB.acceptAll State.empty msgA1) msgA1second).store.itemsOf "A1"
        = [itemsValues "A1" { payloadItem.zero with ChrtId := 1, Price := 10 },
           itemsValues "A1" { payloadItem.zero with ChrtId := 2, Price := 20 }] :=
  ⟨by decide,
    (reupsert_appends_rows DB.acceptAll (handler DB.acceptAll State.empty msgA1) msgA1second
      orderA1second (by decide) rfl (fun _ _ _ => rfl)).1.trans (by decide)⟩

/-- Claim C4 fails as stated: on a database whose `orders.order_uid` is a unique key, the
header insert of the second message for `A1` is rejected, and the lookup of `A1` after
both messages answers the first message, not the second. -/
theorem idempotent_replace_counterexample :
    Unmarshal msgA1 = some orderA1 ∧ Unmarshal msgA1second = some orderA1second ∧
      orderA1.OrderUid = orderA1second.OrderUid ∧ orderA1 ≠ orderA1second ∧
      (getOrder (handler DB.uniqueOrderUid (handler DB.uniqueOrderUid State.empty msgA1)
        msgA1second).cache "A1").1 = { code := 200, body := Body.order orderA1 } ∧
      (getOrder (handler DB.uniqueOrderUid (handler DB.uniqueOrderUid State.empty msgA1)
        msgA1second).cache "A1").1 ≠ { code := 200, body := Body.order orderA1second } :=
  ⟨by decide, by decide, by decide, by decide, by decide, by decide⟩

/-- Claim C4 as amended: for every first message `m1` and every second message that
decodes to `p2`, after the handler has processed both: if the header insert and every
item insert of the second message are executed, the lookup of its order id answers 200
with exactly `p2`, whose item sequence is that of the second message alone, whatever the
first message was; if the header insert or an item insert of the second message is
rejected, the cache is the cache left by the first message, so that when the first
message decoded to `p1` with the same order id and its inserts were all executed, the
lookup of the order id answers 200 with `p1`. -/
theorem second_message_replaces_or_first_stays (db1 db2 : DB) (st : State)
    (m1 m2 : MsgData) (p2 : payload) (hdec : Unmarshal m2 = some p2) :
    ((headerAccepted db2 (handler db1 st m1).store p2 ∧
        ∀ k, itemAccepted db2 (handler db1 st m1).store p2 k) →
      (getOrder (handler db2 (handler db1 st m1) m2).cache p2.OrderUid).1 =
          { code := StatusOK, body := Body.order p2 } ∧
        ∀ order, (handler db2 (handler db1 st m1) m2).cache p2.OrderUid = some order →
          order.Items = p2.Items) ∧
      ((¬ headerAccepted db2 (handler db1 st m1).store p2 ∨
          ∃ k, itemRejected db2 (handler db1 st m1).store p2 k) →
        (handler db2 (handler db1 st m1) m2).cache = (handler db1 st m1).cache ∧
          ∀ p1, Unmarshal m1 = some p1 → p1.OrderUid = p2.OrderUid →
            headerAccepted db1 st.store p1 → (∀ k, itemAccepted db1 st.store p1 k) →
            (getOrder (handler db2 (handler db1 st m1) m2).cache p2.OrderUid).1 =
              { code := StatusOK, body := Body.order p1 }) := by
  constructor
  · intro hok
    rw [handler_persisted db2 (handler db1 st m1) m2 p2 hdec hok.1 hok.2]
    simp only [getOrder, Cache.put, if_true, Option.some.injEq, true_and]
    intro order h
    rw [← h]
  · intro hfail
    have hcache := handler_cache_eq_of_not_persisted db2 (handler db1 st m1) m2 p2 hdec hfail
    refine ⟨hcache, ?_⟩
    intro p1 hdec1 hid hh1 hi1
    rw [hcache, handler_persisted db1 st m1 p1 hdec1 hh1 hi1, ← hid]
    simp [getOrder, Cache.put]

/-- Claim C4 as amended, at a concrete input: both messages for `A1`, on a database that
executes everything (the lookup answers the second message) and on a database with a
unique `order_uid` (the second header insert is rejected and the lookup answers the
first message). -/
theorem second_message_replaces_or_first_stays_witness :
    Unmarshal msgA1 = some orderA1 ∧ Unmarshal msgA1second = some orderA1second ∧
      (getOrder (handler DB.acceptAll (handler DB.acceptAll State.empty msgA1)
        msgA1second).cache "A1").1 = { code := 200, body := Body.order orderA1second } ∧
      ¬ headerAccepted DB.uniqueOrderUid
        (handler DB.uniqueOrderUid State.empty msgA1).store orderA1second ∧
      (getOrder (handler DB.uniqueOrderUid (handler DB.uniqueOrderUid State.empty msgA1)
        msgA1second).cache "A1").1 = { code := 200, body := Body.order orderA1 } :=
  ⟨by decide, by decide,
    ((second_message_replaces_or_first_stays DB.acceptAll DB.acceptAll State.empty msgA1
      msgA1second orderA1second (by decide)).1 ⟨rfl, fun _ _ _ => rfl⟩).1,
    by unfold headerAccepted; decide,
    ((second_message_replaces_or_first_stays DB.uniqueOrderUid DB.uniqueOrderUid State.empty
      msgA1 msgA1second orderA1second (by decide)).2
      (Or.inl (by unfold headerAccepted; decide))).2 orderA1 (by decide) rfl rfl
      (fun _ _ _ => rfl)⟩

/-! ## The routes -/

/-- Claim C8 (lookup contract): for every cache and order id, the lookup route answers
200 exactly when the id is a key of the cache, then with the cached aggregate, and 404
otherwise; it leaves the cache as it was; the health route answers 200 for every
cache and leaves it as it was. -/
theorem lookup_contract (cache : Cache) (orderID : String) :
    ((getOrder cache orderID).1.code = StatusOK ↔ ∃ order, cache orderID = some order) ∧
      (∀ order, cache orderID = some order →
        (getOrder cache orderID).1 = { code := StatusOK, body := Body.order order }) ∧
      (cache orderID = none → (getOrder cache orderID).1.code = StatusNotFound) ∧
      (getOrder cache orderID).2 = cache ∧
      (getHealth cache).1.code = StatusOK ∧ (getHealth cache).2 = cache := by
  cases h : cache orderID with
  | none => simp [getOrder, getHealth, h, StatusOK, StatusNotFound]
  | some order => simp [getOrder, getHealth, h, StatusOK, StatusNotFound]

/-- Claim C8 at a concrete input: after `msgA1` is ingested, `A1` is found and `UNKNOWN`
is not. -/
theorem lookup_contract_witness :
    (getOrder (handler DB.acceptAll State.empty msgA1).cache "A1").1 =
        { code := 200, body := Body.order orderA1 } ∧
      (getOrder (handler DB.acceptAll State.empty msgA1).cache "UNKNOWN").1.code = 404 ∧
      (getHealth (handler DB.acceptAll State.empty msgA1).cache).1.code = 200 :=
  ⟨(lookup_contract (handler DB.acceptAll State.empty msgA1).cache "A1").2.1 orderA1
      (by decide),
    (lookup_contract (handler DB.acceptAll State.empty msgA1).cache "UNKNOWN").2.2.1
      (by decide),
    (lookup_contract (handler DB.acceptAll State.empty msgA1).cache "A1").2.2.2.2.1⟩

/-! ## Warm-up -/

/-- The scan loop of `scanItems` on rows that all scan: every row becomes an item, in
the order of the rows. -/
theorem scanItemsLoop_ok (rd : Reads) :
    ∀ (rows : List itemsRow) (items : List payloadItem),
      (∀ r ∈ rows, rd.scanItemsErr r = false) →
      scanItemsLoop rd rows items = Except.ok (items ++ rows.map scanItemsRow) := by
  intro rows
  induction rows with
  | nil => intro items _; simp [scanItemsLoop]
  | cons r rest ih =>
    intro items h
    have hr : rd.scanItemsErr r = false := h r (List.mem_cons_self r rest)
    have hrest := ih (items ++ [scanItemsRow r]) (fun x hx => h x (List.mem_cons_of_mem r hx))
    simp [scanItemsLoop, hr, hrest]

/-- Function `scanItems` when its query and its scans succeed: the items are the item
rows with the given `order_uid`. -/
theorem scanItems_ok (rd : Reads) (s : Store) (orderUid : String)
    (hq : ∀ q, rd.queryErr q = false) (hd : ∀ q, rd.delivered q = none)
    (hsi : ∀ r ∈ s.items, rd.scanItemsErr r = false) :
    scanItems rd s orderUid = Except.ok ((s.itemsOf orderUid).map scanItemsRow) := by
  have hloop := scanItemsLoop_ok rd (s.itemsOf orderUid) []
    (fun r hr => hsi r (List.mem_of_mem_filter hr))
  simp only [scanItems, queryItems, hq, hd, deliver]
  simpa [Store.itemsOf] using hloop

/-- The row loop of `initializeCache` when every query and scan succeeds: it ends with a
cache that agrees with the cache it started from outside the order ids of the rows, has a
value for every order id of the rows, and, when the order ids of the rows are pairwise
distinct, maps each to the aggregate of its row. -/
theorem initializeCacheLoop_ok (rd : Reads) (s : Store)
    (hq : ∀ q, rd.queryErr q = false) (hd : ∀ q, rd.delivered q = none)
    (hsi : ∀ r ∈ s.items, rd.scanItemsErr r = false) :
    ∀ (rows : List ordersRow) (cache : Cache),
      (∀ r ∈ rows, rd.scanOrdersErr r = false) →
      ∃ result, initializeCacheLoop rd s rows cache = Except.ok result ∧
        (∀ id, id ∉ rows.map (fun r => r.order_uid) → result id = cache id) ∧
        (∀ id, id ∈ rows.map (fun r => r.order_uid) → ∃ order, result id = some order) ∧
        ((rows.map (fun r => r.order_uid)).Nodup →
          ∀ r ∈ rows, result r.order_uid = some (aggregateOf s r)) := by
  intro rows
  induction rows with
  | nil =>
    intro cache _
    exact ⟨cache, by simp [initializeCacheLoop], fun _ _ => rfl, by simp, by simp⟩
  | cons r rest ih =>
    intro cache hso
    have hr : rd.scanOrdersErr r = false := hso r (List.mem_cons_self r rest)
    obtain ⟨result, hres, houtside, hkeys, hvalues⟩ :=
      ih (cache.put r.order_uid (aggregateOf s r))
        (fun x hx => hso x (List.mem_cons_of_mem r hx))
    refine ⟨result, ?_, ?_, ?_, ?_⟩
    · have hitems := scanItems_ok rd s r.order_uid hq hd hsi
      have huid : (scanOrdersRow r).OrderUid = r.order_uid := rfl
      simp only [initializeCacheLoop, hr, huid, hitems]
      exact hres
    · intro id hid
      simp only [List.map_cons, List.mem_cons, not_or] at hid
      rw [houtside id hid.2, Cache.put_other _ _ _ _ hid.1]
    · intro id hid
      by_cases hmem : id ∈ rest.map (fun r => r.order_uid)
      · exact hkeys id hmem
      · simp only [List.map_cons, List.mem_cons] at hid
        have hEq : id = r.order_uid := by
          rcases hid with h | h
          · exact h
          · exact absurd h hmem
        subst hEq
        exact ⟨aggregateOf s r, by rw [houtside _ hmem, Cache.put_same]⟩
    · intro hnodup x hx
      simp only [List.map_cons, List.nodup_cons] at hnodup
      rcases List.mem_cons.mp hx with hEq | hmem
      · subst hEq
        rw [houtside _ hnodup.1, Cache.put_same]
      · exact hvalues hnodup.2 x hmem

/-- Claim C6 (warm-up fidelity): for every store whose header rows have pairwise distinct
order ids, when every query and every scan succeeds `initializeCache` returns a map whose
keys are exactly the order ids of the header rows, and that maps the id of each header
row to the aggregate whose header, delivery and payment fields are the columns of that
row, and whose items are exactly the item rows with that `order_uid`, each with the
columns of its row.  The function reads the store only; it starts from an empty map. -/
theorem warm_up_fidelity (rd : Reads) (s : Store)
    (hq : ∀ q, rd.queryErr q = false) (hd : ∀ q, rd.delivered q = none)
    (hso : ∀ r ∈ s.orders, rd.scanOrdersErr r = false)
    (hsi : ∀ r ∈ s.items, rd.scanItemsErr r = false)
    (hdistinct : (s.orders.map (fun r => r.order_uid)).Nodup) :
    ∃ cache, initializeCache rd s = Except.ok cache ∧
      (∀ id, (∃ order, cache id = some order) ↔ id ∈ s.orders.map (fun r => r.order_uid)) ∧
      ∀ r ∈ s.orders, cache r.order_uid =
        some
          { OrderUid := r.order_uid
            TrackNumber := r.track_number
            Entry := r.entry
            Delivery :=
              { Name := r.delivery_name
                Phone := r.delivery_phone
                Zip := r.delivery_zip
                City := r.delivery_city
                Address := r.delivery_address
                Region := r.delivery_region
                Email := r.delivery_email }
            Payment :=
              { Transaction := r.payment_transaction
                RequestId := r.payment_request_id
                Currency := r.payment_currency
                Provider := r.payment_provider
                Amount := r.payment_amount
                PaymentDt := r.payment_payment_dt
                Bank := r.payment_bank
                DeliveryCost := r.payment_delivery_cost
                GoodsTotal := r.payment_goods_total
                CustomFee := r.payment_custom_fee }
            Items :=
              (s.items.filter (fun i => decide (i.order_uid = r.order_uid))).map fun i =>
                { ChrtId := i.chrt_id
                  TrackNumber := i.track_number
                  Price := i.price
                  Rid := i.rid
                  Name := i.name
                  Sale := i.sale
                  Size := i.size
                  TotalPrice := i.total_price
                  NmId := i.nm_id
                  Brand := i.brand
                  Status := i.status }
            Locale := r.locale
            InternalSignature := r.internal_signature
            CustomerId := r.customer_id
            DeliveryService := r.delivery_service
            ShardKey := r.shardkey
            SmId := r.sm_id
            DateCreated := r.date_created
            OofShard := r.oof_shard } := by
  obtain ⟨cache, hres, houtside, hkeys, hvalues⟩ :=
    initializeCacheLoop_ok rd s hq hd hsi s.orders Cache.empty hso
  refine ⟨cache, ?_, ?_, ?_⟩
  · simp only [initializeCache, queryOrders, hq, hd, deliver]
    simpa using hres
  · intro id
    constructor
    · intro hsome
      by_contra hnot
      obtain ⟨order, horder⟩ := hsome
      rw [houtside id hnot] at horder
      simp [Cache.empty] at horder
    · exact hkeys id
  · intro r hr
    rw [hvalues hdistinct r hr]
    rfl

/-- Claim C6 at a concrete input: a store with the header rows of `A1` and `B2`, two item
rows of `A1` and, between them, two item rows of `B2`, read with no failure.  The map
holds `A1` with its two items and `B2` with its two items, every column in its field,
and holds nothing under an id that no header row carries. -/
theorem warm_up_fidelity_witness :
    (storeTwoOrders.orders.map (fun r => r.order_uid)).Nodup ∧
      ∃ cache, initializeCache Reads.allOk storeTwoOrders = Except.ok cache ∧
        cache "A1" = some orderA1stored ∧ cache "B2" = some orderB2 ∧
        cache "C3" = none := by
  obtain ⟨cache, hres, hkeys, hvalues⟩ :=
    warm_up_fidelity Reads.allOk storeTwoOrders
      (fun _ => rfl) (fun _ => rfl) (fun _ _ => rfl) (fun _ _ => rfl) (by decide)
  refine ⟨by decide, cache, hres, ?_, ?_, ?_⟩
  · exact (hvalues (ordersValues orderA1) (by decide)).trans (by decide)
  · exact (hvalues (ordersValues orderB2) (by decide)).trans (by decide)
  · cases hc : cache "C3" with
    | none => rfl
    | some order =>
      have hmem := (hkeys "C3").mp ⟨order, hc⟩
      exact absurd hmem (by decide)

/-! ## Messages that lack keys -/

/-- Claim C9 fails as stated: the well-formed object `msgNoUid` has no `order_uid`, no
`delivery` and no `payment`; it decodes, and on a database that executes everything the
handler writes a header row with an empty `order_uid` into the empty store and caches
the aggregate under the empty order id. -/
theorem missing_key_counterexample :
    Unmarshal msgNoUid = some orderNoUid ∧ orderNoUid.OrderUid = "" ∧
      State.empty.store.orders = [] ∧ State.empty.cache "" = none ∧
      (handler DB.acceptAll State.empty msgNoUid).store.orders = [ordersValues orderNoUid] ∧
      (ordersValues orderNoUid).order_uid = "" ∧
      (handler DB.acceptAll State.empty msgNoUid).cache "" = some orderNoUid :=
  ⟨by decide, rfl, rfl, rfl, by decide, rfl, by decide⟩

/-- Claim C9 as amended: a missing key is not a decode failure.  Every object obtained
from a decodable object by leaving members out, at top level or inside nested objects,
decodes as well; when the remaining object has no top-level key equal to `order_uid` up
to case folding, the decoded aggregate has the empty order id, and for every database
and state in which its header insert and every item insert are executed the handler
caches the aggregate under the empty order id and stores its header row, whose
`order_uid` is empty. -/
theorem missing_key_still_decodes (fewer members : List (String × Json)) (p : payload)
    (hpruned : MembersPruned fewer members)
    (hdec : Unmarshal (MsgData.json (Json.obj members)) = some p) :
    ∃ q, Unmarshal (MsgData.json (Json.obj fewer)) = some q ∧
      ((∀ kv ∈ fewer, foldName kv.1 ≠ foldName "order_uid") →
        q.OrderUid = "" ∧
        ∀ (db : DB) (st : State), headerAccepted db st.store q →
          (∀ k, itemAccepted db st.store q k) →
          (handler db st (MsgData.json (Json.obj fewer))).cache "" = some q ∧
            ordersValues q ∈ (handler db st (MsgData.json (Json.obj fewer))).store.orders ∧
            (ordersValues q).order_uid = "") := by
  have hsome : (decodeMembers payload.fields Decoding.setField
      { value := payload.zero, spare := [] } fewer).isSome = true := by
    apply decodeMembers_pruned payload.fields Decoding.setField payloadSetField_pruned
      members fewer { value := payload.zero, spare := [] } { value := payload.zero, spare := [] }
      hpruned
    simp only [Unmarshal, decodeStruct, Option.map_eq_some'] at hdec
    obtain ⟨d, hd, _⟩ := hdec
    rw [hd]
    rfl
  obtain ⟨d, hd⟩ := Option.isSome_iff_exists.mp hsome
  have hdecq : Unmarshal (MsgData.json (Json.obj fewer)) = some d.value := by
    simp [Unmarshal, decodeStruct, hd]
  refine ⟨d.value, hdecq, ?_⟩
  intro hmissing
  have huid : d.value.OrderUid = "" :=
    decodeMembers_OrderUid fewer { value := payload.zero, spare := [] } d hmissing hd
  refine ⟨huid, ?_⟩
  intro db st hh hi
  rw [handler_persisted db st _ d.value hdecq hh hi]
  refine ⟨?_, ?_, ?_⟩
  · rw [huid]
    simp [Cache.put]
  · simp [afterRows]
  · simp [ordersValues, huid]

/-- Claim C9 as amended, at a concrete input: `msgB2` without `order_uid`, without the
whole `payment` object, without `zip` inside `delivery` and without `price` inside its
first item decodes, to an aggregate with the empty order id. -/
theorem missing_key_still_decodes_witness :
    Unmarshal msgB2 = some orderB2 ∧
      Unmarshal (MsgData.json (Json.obj membersSparse)) = some orderSparse ∧
      ∃ q, Unmarshal (MsgData.json (Json.obj membersSparse)) = some q ∧ q.OrderUid = "" :=
  ⟨by decide, by decide,
    (missing_key_still_decodes membersSparse membersB2 orderB2
      (by
        unfold membersSparse membersB2
        repeat first
          | exact MembersPruned.nil
          | exact ElemsPruned.nil
          | apply MembersPruned.keep _ (Json.Pruned.same _)
          | apply ElemsPruned.cons (Json.Pruned.same _)
          | apply MembersPruned.keep
          | apply ElemsPruned.cons
          | apply Json.Pruned.obj
          | apply Json.Pruned.arr
          | apply MembersPruned.drop)
      (by decide)).imp
      (fun _ h => ⟨h.1, (h.2 (by decide)).1⟩)⟩

/-! ## Stored rows and scanned aggregates -/

/-- The columns written by the two `INSERT` statements are read back by the two `Scan`
calls into the fields they came from: scanning the header row of an aggregate and the
rows of its items gives the aggregate back. -/
theorem scan_inverts_insert (p : payload) :
    { scanOrdersRow (ordersValues p) with
      Items := (p.Items.map (itemsValues p.OrderUid)).map scanItemsRow } = p := by
  have hitems : (p.Items.map (itemsValues p.OrderUid)).map scanItemsRow = p.Items := by
    rw [List.map_map]
    have hid : scanItemsRow ∘ itemsValues p.OrderUid = id := by
      funext item
      rfl
    rw [hid, List.map_id]
  rw [hitems]
  rfl

/-- Warm-up after one ingestion into an empty store: for every database and message that
decodes to `p` and whose inserts are all executed, `initializeCache`, when every query
and scan succeeds, returns a map that holds `p` under its order id, as the cache of the
handler does. -/
theorem warm_up_after_ingestion (db : DB) (rd : Reads) (m : MsgData) (p : payload)
    (hdec : Unmarshal m = some p) (hh : headerAccepted db Store.empty p)
    (hi : ∀ k, itemAccepted db Store.empty p k)
    (hq : ∀ q, rd.queryErr q = false) (hd : ∀ q, rd.delivered q = none)
    (hso : ∀ r, rd.scanOrdersErr r = false) (hsi : ∀ r, rd.scanItemsErr r = false) :
    ∃ cache, initializeCache rd (handler db State.empty m).store = Except.ok cache ∧
      cache p.OrderUid = some p ∧
      cache p.OrderUid = (handler db State.empty m).cache p.OrderUid := by
  have hstate := handler_persisted db State.empty m p hdec hh hi
  have hstore : (handler db State.empty m).store =
      { orders := [ordersValues p], items := p.Items.map (itemsValues p.OrderUid) } := by
    rw [hstate]
    simp [afterRows, State.empty, Store.empty]
  obtain ⟨cache, hres, _, _, hvalues⟩ :=
    initializeCacheLoop_ok rd (handler db State.empty m).store hq hd (fun r _ => hsi r)
      (handler db State.empty m).store.orders Cache.empty (fun r _ => hso r)
  have hvalue := hvalues (by rw [hstore]; simp) (ordersValues p) (by rw [hstore]; simp)
  have hagg : aggregateOf (handler db State.empty m).store (ordersValues p) = p := by
    rw [hstore]
    have hfilter : (p.Items.map (itemsValues p.OrderUid)).filter
        (fun r => decide (r.order_uid = p.OrderUid)) = p.Items.map (itemsValues p.OrderUid) := by
      rw [List.filter_eq_self]
      intro r hr
      obtain ⟨item, _, rfl⟩ := List.mem_map.mp hr
      simp [itemsValues]
    have hkey : (ordersValues p).order_uid = p.OrderUid := rfl
    simp only [aggregateOf, Store.itemsOf, hkey, hfilter]
    exact scan_inverts_insert p
  refine ⟨cache, ?_, ?_, ?_⟩
  · simp only [initializeCache, queryOrders, hq, hd, deliver]
    simpa using hres
  · have hkey : (ordersValues p).order_uid = p.OrderUid := rfl
    rw [← hkey, hvalue, hagg]
  · have hkey : (ordersValues p).order_uid = p.OrderUid := rfl
    rw [hstate]
    simp only [Cache.put, if_true]
    rw [← hkey, hvalue, hagg]

/-- Warm-up after the ingestion of `msgA1` into an empty store, read with no failure. -/
theorem warm_up_after_ingestion_witness :
    Unmarshal msgA1 = some orderA1 ∧
      ∃ cache, initializeCache Reads.allOk (handler DB.acceptAll State.empty msgA1).store
          = Except.ok cache ∧ cache "A1" = some orderA1 :=
  ⟨by decide,
    (warm_up_after_ingestion DB.acceptAll Reads.allOk msgA1 orderA1 (by decide) rfl
      (fun _ _ _ => rfl) (fun _ => rfl) (fun _ => rfl) (fun _ => rfl) (fun _ => rfl)).imp
      (fun _ h => ⟨h.1, h.2.1⟩)⟩

end WbLevel0
